import Mathlib

/-!
# BizRuleNet — verification of the spec against the source

Shallow embedding of the three source files:
* `src/mcp/mcp_server.py` — query safety gateway (`_is_read_only`, `query_runner`);
* `src/load_neo4j_graph.py` — property-graph writer (`Neo4jLoader.load_from_json`);
* `src/load_pyg_graph.py` — heterogeneous assembler (`load_hetero_graph`).

The external graph store and the tensor library are out of scope of the
repository (they are third-party collaborators); they are modelled at their
interface: the store as an oracle deciding which create operations succeed and
answering the relationship lookup query by match semantics over the nodes
actually created, the tensor constructor by its documented behaviour on nested
lists (rejecting ragged input, otherwise returning the buffer unchanged).
-/

namespace BizRuleNet

/-- Decidable equality for `Except`, used to evaluate closed statements about
fallible operations. -/
instance {ε α : Type} [DecidableEq ε] [DecidableEq α] : DecidableEq (Except ε α) := fun x y =>
  match x, y with
  | .error a, .error b =>
      if h : a = b then isTrue (congrArg Except.error h)
      else isFalse (fun hh => h (Except.error.inj hh))
  | .error _, .ok _ => isFalse (fun hh => Except.noConfusion hh)
  | .ok _, .error _ => isFalse (fun hh => Except.noConfusion hh)
  | .ok a, .ok b =>
      if h : a = b then isTrue (congrArg Except.ok h)
      else isFalse (fun hh => h (Except.ok.inj hh))

/-! ## Python string primitives used by the sources -/

/-- Python `s.upper()` on the ASCII range: uppercase every character. -/
def pyUpper (s : String) : String := ⟨s.data.map Char.toUpper⟩

/-- Python `needle in hay` substring test. -/
def pyIn (needle hay : String) : Bool := decide (needle.data <:+: hay.data)

/-- Python `s.rstrip()`: drop trailing whitespace. -/
def pyRstrip (s : String) : String :=
  ⟨(s.data.reverse.dropWhile Char.isWhitespace).reverse⟩

/-! ## Query Safety Gateway (`src/mcp/mcp_server.py`) -/

/-- The denylist of `_is_read_only`, in source order.  Note that the sixth
entry is written `"CALL dbms"` with `dbms` in lowercase, exactly as in the
source. -/
def bad : List String :=
  ["CREATE", "MERGE", "DELETE", "SET", "DROP", "CALL dbms", "LOAD CSV"]

/-- `_is_read_only(cypher)`: uppercase the query and refuse when any denylist
entry occurs as a substring. -/
def _is_read_only (cypher : String) : Bool :=
  let up := pyUpper cypher
  !(bad.any (fun b => pyIn b up))

/-- The bound-injection step of `query_runner`: when the uppercased text has no
`LIMIT` substring, append a 25-row bound to the right-stripped text. -/
def effectiveQuery (cypher_q : String) : String :=
  if pyIn "LIMIT" (pyUpper cypher_q) then cypher_q
  else pyRstrip cypher_q ++ "\nLIMIT 25"

/-- Outcome of one `query_runner` call: which query text (if any) was sent to
the store, and the reply — a normal string or a propagated store error. -/
structure GatewayOutcome (Err : Type) where
  executed : Option String
  reply : Except Err String

/-- `query_runner(cypher_q)`.  The store is the external collaborator: a
function from the executed query text to either an error or a list of result
rows; `render` is the driver's `str(r.data())` rendering of one row. -/
def query_runner {Row Err : Type} (store : String → Except Err (List Row))
    (render : Row → String) (cypher_q : String) : GatewayOutcome Err :=
  if _is_read_only cypher_q then
    let q := effectiveQuery cypher_q
    match store q with
    | .error e => { executed := some q, reply := .error e }
    | .ok results =>
        let formatted := String.intercalate "\n" (results.map render)
        { executed := some q
          reply := .ok (if formatted = "" then "No results found." else formatted) }
  else
    { executed := none, reply := .ok "Refused: only read-only Cypher is allowed." }

/-- A trivial store used to instantiate closed statements: always returns an
empty result set. -/
def emptyStore : String → Except Nat (List Unit) := fun _ => .ok []

/-- A store that always fails with error code `42`. -/
def failingStore : String → Except Nat (List Unit) := fun _ => .error 42

/-- Row rendering for the trivial stores. -/
def unitRender : Unit → String := fun _ => "()"

/-! ## Property-Graph Writer (`src/load_neo4j_graph.py`) -/

/-- A JSON scalar property value. -/
inductive Value
  | vStr (s : String)
  | vInt (n : Int)
  | vBool (b : Bool)
  | vNull
deriving DecidableEq

/-- One element of the export's `nodes` array.  `labels?` and `properties?`
are `Option`s because the source reads them with `node.get('labels', ['Node'])`
and `node.get('properties', {})`. -/
structure ExportedNode where
  id : Value
  labels? : Option (List String)
  properties? : Option (List (String × Value))
deriving DecidableEq

/-- One element of the export's `relationships` array; `type?` and
`properties?` default like the node fields (`rel.get('type', 'RELATED_TO')`,
`rel.get('properties', {})`). -/
structure ExportedRelationship where
  type? : Option String
  startNodeId : Value
  endNodeId : Value
  properties? : Option (List (String × Value))
deriving DecidableEq

/-- A structured export document: `export.get('nodes', [])` and
`export.get('relationships', [])`. -/
structure GraphExport where
  nodes : List ExportedNode
  relationships : List ExportedRelationship
deriving DecidableEq

/-- Python dict lookup `d[k]` (as an `Option`). -/
def dictGet {β : Type} (k : String) : List (String × β) → Option β
  | [] => none
  | (k', v) :: rest => if k' = k then some v else dictGet k rest

/-- Python dict assignment `d[k] = v`: replace the value in place when the key
exists, otherwise append the pair at the end. -/
def dictSet {β : Type} (d : List (String × β)) (k : String) (v : β) :
    List (String × β) :=
  match d with
  | [] => [(k, v)]
  | (k', v') :: rest => if k' = k then (k, v) :: rest else (k', v') :: dictSet rest k v

/-- The property bag actually submitted for a node: its declared properties
after the source's `props['_rulenet_id'] = node_id` assignment. -/
def finalProps (node : ExportedNode) : List (String × Value) :=
  dictSet (node.properties?.getD []) "_rulenet_id" node.id

/-- One create attempt issued by the writer, in issue order. -/
inductive Op
  | nodeAttempt (n : ExportedNode)
  | relAttempt (r : ExportedRelationship)
deriving DecidableEq

/-- Whether an `Op` is a relationship-creation attempt. -/
def Op.isRel : Op → Bool
  | .nodeAttempt _ => false
  | .relAttempt _ => true

/-- Did the fallible operation succeed (no exception raised)? -/
def attemptOk {ε α : Type} : Except ε α → Bool
  | .ok _ => true
  | .error _ => false

/-- Result of the node phase: the attempts made, the two counters, and the
`_rulenet_id` marker values of the nodes the store actually created. -/
structure NodePhaseResult where
  trace : List Op
  created : Nat
  failed : Nat
  createdIds : List Value
deriving DecidableEq

/-- Phase one of `load_from_json`: for each node in input order, submit a
`CREATE` carrying `finalProps`; an exception is caught, logged and counted,
and the loop continues.  The external store is the oracle `runNode`. -/
def runNodePhase (runNode : ExportedNode → Except String Unit) :
    List ExportedNode → NodePhaseResult
  | [] => ⟨[], 0, 0, []⟩
  | n :: rest =>
    let r := runNodePhase runNode rest
    match runNode n with
    | .ok _ =>
        ⟨.nodeAttempt n :: r.trace, r.created + 1, r.failed,
          (dictGet "_rulenet_id" (finalProps n)).getD .vNull :: r.createdIds⟩
    | .error _ =>
        ⟨.nodeAttempt n :: r.trace, r.created, r.failed + 1, r.createdIds⟩

/-- When the relationship query runs without raising, the
`MATCH (a {...}) MATCH (b {...}) CREATE ... RETURN r` result has a row exactly
when both endpoint markers match some created node. -/
def endpointsResolve (createdIds : List Value) (r : ExportedRelationship) : Bool :=
  decide (r.startNodeId ∈ createdIds) && decide (r.endNodeId ∈ createdIds)

/-- A relationship is created exactly when its create query raises no
exception (the `runRel` store oracle — e.g. a relation type such as `is a`
spliced into the query text makes the store raise a syntax error) and both
endpoints resolve among the created nodes. -/
def relSucceeds (runRel : ExportedRelationship → Except String Unit)
    (createdIds : List Value) (r : ExportedRelationship) : Bool :=
  attemptOk (runRel r) && endpointsResolve createdIds r

/-- Result of the relationship phase. -/
structure RelPhaseResult where
  trace : List Op
  created : Nat
  failed : Nat
deriving DecidableEq

/-- Phase two of `load_from_json`: for each relationship in input order, issue
the two-`MATCH` create query.  The query execution itself may raise (the
`runRel` oracle; the exception is caught, logged and counted, and the loop
continues); when it does not raise, `result.single()` yields a row iff both
endpoints resolve, otherwise the relationship is logged as not found and
counted as a failure, and the loop continues. -/
def runRelPhase (runRel : ExportedRelationship → Except String Unit)
    (createdIds : List Value) :
    List ExportedRelationship → RelPhaseResult
  | [] => ⟨[], 0, 0⟩
  | r :: rest =>
    let res := runRelPhase runRel createdIds rest
    match runRel r with
    | .error _ => ⟨.relAttempt r :: res.trace, res.created, res.failed + 1⟩
    | .ok _ =>
      if endpointsResolve createdIds r
      then ⟨.relAttempt r :: res.trace, res.created + 1, res.failed⟩
      else ⟨.relAttempt r :: res.trace, res.created, res.failed + 1⟩

/-- Everything observable about one `load_from_json` run: the ordered create
attempts, the counters, and `returned`, the dictionary the method returns
(`{"nodes_created": ..., "relationships_created": ...}` in the source). -/
structure LoadResult where
  trace : List Op
  nodes_created : Nat
  nodes_failed : Nat
  relationships_created : Nat
  relationships_failed : Nat
  returned : List (String × Nat)
deriving DecidableEq

/-- `Neo4jLoader.load_from_json`, with the store abstracted as the per-node
oracle `runNode` (which node create operations the store accepts) and the
per-relationship oracle `runRel` (which relationship create queries execute
without raising). -/
def load_from_json (runNode : ExportedNode → Except String Unit)
    (runRel : ExportedRelationship → Except String Unit)
    (ex : GraphExport) : LoadResult :=
  let np := runNodePhase runNode ex.nodes
  let rp := runRelPhase runRel np.createdIds ex.relationships
  { trace := np.trace ++ rp.trace
    nodes_created := np.created
    nodes_failed := np.failed
    relationships_created := rp.created
    relationships_failed := rp.failed
    returned := [("nodes_created", np.created), ("relationships_created", rp.created)] }

/-! ## Heterogeneous Assembler (`src/load_pyg_graph.py`) -/

/-- A tensor-mode export document: `nodeFeatures`, optional `nodeLabels`,
`edgeIndices`, optional `edgeFeatures`.  Numeric entries are modelled as
integers; only their shapes matter to the assembler. -/
structure TensorExport where
  nodeFeatures : List (String × List (List Int))
  nodeLabels? : Option (List (String × List String))
  edgeIndices : List (String × List (List Int))
  edgeFeatures? : Option (List (String × List (List Int)))
deriving DecidableEq

/-- The only failures `load_hetero_graph` can produce: exceptions raised by
the tensor library or by tuple unpacking.  The source defines no
`ShapeMismatchError` type. -/
inductive PygError
  | valueError (msg : String)
deriving DecidableEq

/-- `torch.tensor(rows)` on a nested list: raises `ValueError` when the rows
are ragged, otherwise materialises the buffer unchanged. -/
def torchTensor (rows : List (List Int)) : Except PygError (List (List Int)) :=
  match rows with
  | [] => .ok []
  | r :: rs =>
    if rs.all (fun row => row.length == r.length)
    then .ok (r :: rs)
    else .error (.valueError "expected sequence of uniform length")

/-- Helper for `pySplitComma`: accumulate the current field (reversed). -/
def splitCommaAux : List Char → List Char → List String
  | [], acc => [⟨acc.reverse⟩]
  | c :: rest, acc =>
    if c = ',' then ⟨acc.reverse⟩ :: splitCommaAux rest []
    else splitCommaAux rest (c :: acc)

/-- Python `s.split(',')`. -/
def pySplitComma (s : String) : List String := splitCommaAux s.data []

/-- `triplet_str.split(',')` followed by unpacking into exactly three names;
any other arity raises `ValueError`. -/
def parseTriplet (s : String) : Except PygError (String × String × String) :=
  match pySplitComma s with
  | [a, b, c] => .ok (a, b, c)
  | _ => .error (.valueError "not enough values to unpack")

/-- Per-node-type slot of the assembled `HeteroData`. -/
structure NodeStore where
  x : List (List Int)
  labels : Option (List String)
deriving DecidableEq

/-- Per-edge-triplet slot of the assembled `HeteroData`. -/
structure EdgeStore where
  edge_index : List (List Int)
  edge_attr : Option (List (List Int))
deriving DecidableEq

/-- The assembled heterogeneous graph. -/
structure HeteroData where
  nodeStores : List (String × NodeStore)
  edgeStores : List ((String × String × String) × EdgeStore)
deriving DecidableEq

/-- First loop of `load_hetero_graph`: one `data[node_type].x` buffer per node
type, with the optional `nodeLabels` entry attached as metadata. -/
def loadNodeStores (labels? : Option (List (String × List String))) :
    List (String × List (List Int)) → Except PygError (List (String × NodeStore))
  | [] => .ok []
  | (nt, feats) :: rest => do
    let x ← torchTensor feats
    let rest' ← loadNodeStores labels? rest
    .ok ((nt, ⟨x, labels?.bind (dictGet nt)⟩) :: rest')

/-- The `edge_attr` computation of the edge loop: an `edgeFeatures` entry is
attached only when it is a non-empty list whose first row is non-empty, and
its tensor construction may itself raise. -/
def edgeAttr (edgeFeatures? : Option (List (String × List (List Int))))
    (ts : String) : Except PygError (Option (List (List Int))) :=
  match edgeFeatures?.bind (dictGet ts) with
  | none => .ok none
  | some [] => .ok none
  | some (r0 :: rrest) =>
      if r0.length > 0
      then do
        let t ← torchTensor (r0 :: rrest)
        .ok (some t)
      else .ok none

/-- Second loop of `load_hetero_graph`: one `edge_index` buffer per triplet
key, with the optional `edge_attr` attachment of `edgeAttr`. -/
def loadEdgeStores (edgeFeatures? : Option (List (String × List (List Int)))) :
    List (String × List (List Int)) →
      Except PygError (List ((String × String × String) × EdgeStore))
  | [] => .ok []
  | (ts, indices) :: rest => do
    let trip ← parseTriplet ts
    let ei ← torchTensor indices
    let attr? ← edgeAttr edgeFeatures? ts
    let rest' ← loadEdgeStores edgeFeatures? rest
    .ok ((trip, ⟨ei, attr?⟩) :: rest')

/-- `load_hetero_graph`: assemble all node buffers, then all edge buffers; the
first exception aborts the call, otherwise the `HeteroData` is returned with
no shape or bounds validation of any kind. -/
def load_hetero_graph (ex : TensorExport) : Except PygError HeteroData := do
  let ns ← loadNodeStores ex.nodeLabels? ex.nodeFeatures
  let es ← loadEdgeStores ex.edgeFeatures? ex.edgeIndices
  .ok ⟨ns, es⟩

/-! ## Gateway lemmas -/

/-- The data of `pyUpper` is the character-wise uppercase map. -/
lemma pyUpper_data (s : String) : (pyUpper s).data = s.data.map Char.toUpper := rfl

/-- `pyIn` decides substring containment. -/
lemma pyIn_eq_true {n h : String} : pyIn n h = true ↔ n.data <:+: h.data := by
  simp [pyIn]

/-- The five tokens named by the spec all belong to the source denylist. -/
lemma claimTokens_sub_bad :
    ∀ t ∈ (["DELETE", "MERGE", "SET", "DROP", "CREATE"] : List String), t ∈ bad := by
  decide

/-- A query whose uppercase form contains a denylist entry is classified as
not read-only. -/
lemma is_read_only_false_of_infix {q t : String} (ht : t ∈ bad)
    (hinf : t.data <:+: (pyUpper q).data) : _is_read_only q = false := by
  have hany : bad.any (fun b => pyIn b (pyUpper q)) = true :=
    List.any_eq_true.mpr ⟨t, ht, pyIn_eq_true.mpr hinf⟩
  simp [_is_read_only, hany]

/-- An accepted query is executed, and the executed text is `effectiveQuery`. -/
lemma executed_of_accepted {Row Err : Type} (store : String → Except Err (List Row))
    (render : Row → String) {q : String} (hacc : _is_read_only q = true) :
    (query_runner store render q).executed = some (effectiveQuery q) := by
  unfold query_runner
  rw [hacc]
  cases hstore : store (effectiveQuery q) <;> simp [hstore]

/-! ## Claims about the Query Safety Gateway -/

/-- C1: every query string that contains, case-insensitively and anywhere in
the text, one of the tokens `DELETE`, `MERGE`, `SET`, `DROP` or `CREATE`
(witnessed by a decomposition `q = a ++ mid ++ b` where `mid` uppercases to
the token) makes `query_runner` return the fixed refusal string, and the
query is never executed against the store. -/
theorem C1_gateway_refuses_denylisted_tokens {Row Err : Type}
    (store : String → Except Err (List Row)) (render : Row → String)
    (q t : String) (ht : t ∈ (["DELETE", "MERGE", "SET", "DROP", "CREATE"] : List String))
    (a mid b : List Char) (hsplit : q.data = a ++ mid ++ b)
    (hcase : mid.map Char.toUpper = t.data) :
    (query_runner store render q).executed = none ∧
      (query_runner store render q).reply =
        .ok "Refused: only read-only Cypher is allowed." := by
  have hinf : t.data <:+: (pyUpper q).data := by
    refine ⟨a.map Char.toUpper, b.map Char.toUpper, ?_⟩
    rw [pyUpper_data, hsplit, List.map_append, List.map_append, ← hcase,
      List.append_assoc]
  have hro : _is_read_only q = false :=
    is_read_only_false_of_infix (claimTokens_sub_bad t ht) hinf
  unfold query_runner
  rw [hro]
  exact ⟨rfl, rfl⟩

/-- Witness for C1 at the spec's own example input
`"match (n) detach delete n"`. -/
theorem C1_witness :
    (query_runner emptyStore unitRender "match (n) detach delete n").executed = none ∧
      (query_runner emptyStore unitRender "match (n) detach delete n").reply =
        .ok "Refused: only read-only Cypher is allowed." :=
  C1_gateway_refuses_denylisted_tokens emptyStore unitRender
    "match (n) detach delete n" "DELETE" (by decide)
    "match (n) detach ".data "delete".data " n".data (by decide) (by decide)

/-- C2: the denylist entry `"CALL dbms"` keeps its lowercase `dbms` while the
query is uppercased before the scan, so it can never match: the
administrative-procedure call below passes the gate and is executed (with
the 25-row bound appended), although `"CALL dbms"` is literally in the
source's denylist.  The code contradicts its own denylist intent and §4.5 of
the spec. -/
theorem C2_admin_procedure_call_not_blocked :
    "CALL dbms" ∈ bad ∧
      _is_read_only "call dbms.components() yield name return name" = true ∧
      (query_runner emptyStore unitRender
          "call dbms.components() yield name return name").executed =
        some "call dbms.components() yield name return name\nLIMIT 25" := by
  refine ⟨by decide, by decide, ?_⟩
  decide

/-- C3: an accepted query with no case-insensitive `LIMIT` substring is
executed with the 25-row bound appended (to its right-stripped text), while a
query already containing such a substring is executed unmodified; in
particular for the spec's two example inputs. -/
theorem C3_bound_injection {Row Err : Type}
    (store : String → Except Err (List Row)) (render : Row → String)
    (q : String) (hacc : _is_read_only q = true) :
    (pyIn "LIMIT" (pyUpper q) = false →
        (query_runner store render q).executed = some (pyRstrip q ++ "\nLIMIT 25")) ∧
      (pyIn "LIMIT" (pyUpper q) = true →
        (query_runner store render q).executed = some q) ∧
      (query_runner emptyStore unitRender "MATCH (n) RETURN n").executed =
        some "MATCH (n) RETURN n\nLIMIT 25" ∧
      (query_runner emptyStore unitRender "MATCH (n) RETURN n LIMIT 5").executed =
        some "MATCH (n) RETURN n LIMIT 5" := by
  refine ⟨?_, ?_, by decide, by decide⟩
  · intro hno
    rw [executed_of_accepted store render hacc]
    simp [effectiveQuery, hno]
  · intro hyes
    rw [executed_of_accepted store render hacc]
    simp [effectiveQuery, hyes]

/-- Witness for C3 at `"MATCH (n) RETURN n"` (bound appended) and
`"MATCH (n) RETURN n LIMIT 5"` (left unmodified). -/
theorem C3_witness :
    (query_runner emptyStore unitRender "MATCH (n) RETURN n").executed =
        some "MATCH (n) RETURN n\nLIMIT 25" ∧
      (query_runner emptyStore unitRender "MATCH (n) RETURN n LIMIT 5").executed =
        some "MATCH (n) RETURN n LIMIT 5" :=
  ⟨(C3_bound_injection emptyStore unitRender "MATCH (n) RETURN n"
      (by decide)).1 (by decide),
    (C3_bound_injection emptyStore unitRender "MATCH (n) RETURN n LIMIT 5"
      (by decide)).2.1 (by decide)⟩

/-- C4: for an accepted query, an empty result set from the store makes
`query_runner` reply with the fixed `"No results found."` sentinel, and a
store error propagates to the caller unchanged (so the sentinel is never the
reply of a failed execution). -/
theorem C4_empty_sentinel_and_error_propagation {Row Err : Type}
    (store : String → Except Err (List Row)) (render : Row → String)
    (q : String) (hacc : _is_read_only q = true) :
    (store (effectiveQuery q) = .ok [] →
        (query_runner store render q).reply = .ok "No results found.") ∧
      ∀ err : Err, store (effectiveQuery q) = .error err →
        (query_runner store render q).reply = .error err := by
  constructor
  · intro hok
    unfold query_runner
    rw [hacc]
    have hempty : String.intercalate "\n" ([] : List String) = "" := rfl
    simp [hok, hempty]
  · intro err herr
    unfold query_runner
    rw [hacc]
    simp [herr]

/-- Witness for C4: the always-empty store yields the sentinel, the
always-failing store propagates its error `42`. -/
theorem C4_witness :
    (query_runner emptyStore unitRender "MATCH (n) RETURN n").reply =
        .ok "No results found." ∧
      (query_runner failingStore unitRender "MATCH (n) RETURN n").reply =
        .error 42 :=
  ⟨(C4_empty_sentinel_and_error_propagation emptyStore unitRender
      "MATCH (n) RETURN n" (by decide)).1 rfl,
    (C4_empty_sentinel_and_error_propagation failingStore unitRender
      "MATCH (n) RETURN n" (by decide)).2 42 rfl⟩

/-! ## Writer lemmas -/

/-- The node phase attempts exactly the input nodes, in input order. -/
lemma runNodePhase_trace (o : ExportedNode → Except String Unit)
    (ns : List ExportedNode) :
    (runNodePhase o ns).trace = ns.map Op.nodeAttempt := by
  induction ns with
  | nil => rfl
  | cons n rest ih =>
    cases h : o n <;> simp [runNodePhase, h, ih]

/-- Created plus failed node counts add up to the attempted count. -/
lemma runNodePhase_counts (o : ExportedNode → Except String Unit)
    (ns : List ExportedNode) :
    (runNodePhase o ns).created + (runNodePhase o ns).failed = ns.length := by
  induction ns with
  | nil => rfl
  | cons n rest ih =>
    cases h : o n <;> simp [runNodePhase, h] <;> omega

/-- Failed node creations are exactly the ones the store rejected. -/
lemma runNodePhase_failed (o : ExportedNode → Except String Unit)
    (ns : List ExportedNode) :
    (runNodePhase o ns).failed = ns.countP (fun n => !attemptOk (o n)) := by
  induction ns with
  | nil => rfl
  | cons n rest ih =>
    cases h : o n <;> simp [runNodePhase, h, ih, List.countP_cons, attemptOk]

/-- The relationship phase attempts exactly the input relationships, in input
order, whatever each attempt's outcome. -/
lemma runRelPhase_trace (runRel : ExportedRelationship → Except String Unit)
    (ids : List Value) (rs : List ExportedRelationship) :
    (runRelPhase runRel ids rs).trace = rs.map Op.relAttempt := by
  induction rs with
  | nil => rfl
  | cons r rest ih =>
    cases hr : runRel r with
    | error e => simp [runRelPhase, hr, ih]
    | ok u =>
      by_cases h : endpointsResolve ids r = true <;>
        simp [runRelPhase, hr, h, ih]

/-- Created relationships are exactly those whose query raises no exception
and whose endpoints both resolve. -/
lemma runRelPhase_created (runRel : ExportedRelationship → Except String Unit)
    (ids : List Value) (rs : List ExportedRelationship) :
    (runRelPhase runRel ids rs).created = rs.countP (relSucceeds runRel ids) := by
  induction rs with
  | nil => rfl
  | cons r rest ih =>
    cases hr : runRel r with
    | error e =>
        simp [runRelPhase, hr, ih, List.countP_cons, relSucceeds, attemptOk]
    | ok u =>
      by_cases h : endpointsResolve ids r = true <;>
        simp [runRelPhase, hr, h, ih, List.countP_cons, relSucceeds, attemptOk]

/-- Failed relationships are exactly those whose query raises or whose
endpoints do not both resolve. -/
lemma runRelPhase_failed (runRel : ExportedRelationship → Except String Unit)
    (ids : List Value) (rs : List ExportedRelationship) :
    (runRelPhase runRel ids rs).failed =
      rs.countP (fun r => !relSucceeds runRel ids r) := by
  induction rs with
  | nil => rfl
  | cons r rest ih =>
    cases hr : runRel r with
    | error e =>
        simp [runRelPhase, hr, ih, List.countP_cons, relSucceeds, attemptOk]
    | ok u =>
      by_cases h : endpointsResolve ids r = true <;>
        simp [runRelPhase, hr, h, ih, List.countP_cons, relSucceeds, attemptOk]

/-- Created plus failed relationship counts add up to the attempted count. -/
lemma runRelPhase_counts (runRel : ExportedRelationship → Except String Unit)
    (ids : List Value) (rs : List ExportedRelationship) :
    (runRelPhase runRel ids rs).created + (runRelPhase runRel ids rs).failed =
      rs.length := by
  induction rs with
  | nil => rfl
  | cons r rest ih =>
    cases hr : runRel r with
    | error e => simp [runRelPhase, hr]; omega
    | ok u =>
      by_cases h : endpointsResolve ids r = true <;>
        simp [runRelPhase, hr, h] <;> omega

/-- A node trace contains no relationship attempts. -/
lemma countP_isRel_map_nodeAttempt (ns : List ExportedNode) :
    (ns.map Op.nodeAttempt).countP Op.isRel = 0 := by
  induction ns with
  | nil => rfl
  | cons n rest ih => simp [List.countP_cons, ih, Op.isRel]

/-- A relationship trace consists entirely of relationship attempts. -/
lemma countP_isRel_map_relAttempt (rs : List ExportedRelationship) :
    (rs.map Op.relAttempt).countP Op.isRel = rs.length := by
  induction rs with
  | nil => rfl
  | cons r rest ih => simp [List.countP_cons, ih, Op.isRel]

/-! ## Claims about the Property-Graph Writer -/

/-- The full attempt trace of one `load_from_json` run. -/
lemma load_from_json_trace (o : ExportedNode → Except String Unit)
    (oRel : ExportedRelationship → Except String Unit) (ex : GraphExport) :
    (load_from_json o oRel ex).trace =
      ex.nodes.map Op.nodeAttempt ++ ex.relationships.map Op.relAttempt := by
  simp [load_from_json, runNodePhase_trace, runRelPhase_trace]

/-- C5: the import is strictly two-phase — under any store behaviour, the
attempt trace of `load_from_json` is the input nodes, in order, followed by
the input relationships, in order; in particular no relationship attempt
precedes any node attempt. -/
theorem C5_two_phase_ordering (o : ExportedNode → Except String Unit)
    (oRel : ExportedRelationship → Except String Unit) (ex : GraphExport) :
    (load_from_json o oRel ex).trace =
      ex.nodes.map Op.nodeAttempt ++ ex.relationships.map Op.relAttempt :=
  load_from_json_trace o oRel ex

/-- A store oracle that accepts every node creation. -/
def okOracle : ExportedNode → Except String Unit := fun _ => .ok ()

/-- A store oracle under which every relationship create query executes
without raising. -/
def okRelOracle : ExportedRelationship → Except String Unit := fun _ => .ok ()

/-- A store oracle under which every relationship create query raises — as
the real store does when the relationship's declared type (spliced verbatim
into the query text, e.g. `is a`) is not valid query syntax. -/
def failRelOracle : ExportedRelationship → Except String Unit :=
  fun _ => .error "SyntaxError"

/-- The spec's own sample export: one `Person` node, no relationships. -/
def aliceExport : GraphExport :=
  ⟨[⟨.vInt 1, some ["Person"], some [("label", .vStr "Alice")]⟩], []⟩

/-- An export with one node and one self-loop relationship whose declared
type `is a` is spliced into the create query. -/
def isAExport : GraphExport :=
  ⟨[⟨.vInt 1, some ["Person"], some [("label", .vStr "Alice")]⟩],
    [⟨some "is a", .vInt 1, .vInt 1, none⟩]⟩

/-- C6 counterexample, two-part.  First, the dictionary `load_from_json`
returns holds only `nodes_created` and `relationships_created` — no
`nodes_attempted`/`relationships_attempted` entries — so the claim that the
writer returns all four final counts is false (the attempted counts are only
printed, never logged in the return value).  Second, on `isAExport` under a
store that raises on the spliced relationship type, both endpoints of the
sole relationship resolve and yet `relationships_created = 0 < 1 =
relationships_attempted`, so "equality iff every relationship's endpoints
were both creatable" is also false: the relationship's own create can fail
after its endpoints resolved. -/
theorem C6_counterexample :
    ((load_from_json okOracle okRelOracle aliceExport).returned =
        [("nodes_created", 1), ("relationships_created", 0)] ∧
      dictGet "nodes_attempted"
        (load_from_json okOracle okRelOracle aliceExport).returned = none ∧
      dictGet "relationships_attempted"
        (load_from_json okOracle okRelOracle aliceExport).returned = none) ∧
      (endpointsResolve (runNodePhase okOracle isAExport.nodes).createdIds
          ⟨some "is a", .vInt 1, .vInt 1, none⟩ = true ∧
        (load_from_json okOracle failRelOracle isAExport).trace.countP Op.isRel = 1 ∧
        (load_from_json okOracle failRelOracle isAExport).relationships_created = 0) := by
  decide

/-- C6 (amended): the number of relationship attempts equals the input
relationship count, `relationships_created ≤ relationships_attempted` with
equality iff every relationship's creation succeeds — its create query
raises no exception and both its endpoints resolve among the created
nodes — and the writer returns just the two created counts. -/
theorem C6_relationship_count_invariants (o : ExportedNode → Except String Unit)
    (oRel : ExportedRelationship → Except String Unit) (ex : GraphExport) :
    (load_from_json o oRel ex).trace.countP Op.isRel = ex.relationships.length ∧
      (load_from_json o oRel ex).relationships_created ≤
        (load_from_json o oRel ex).trace.countP Op.isRel ∧
      ((load_from_json o oRel ex).relationships_created = ex.relationships.length ↔
        ∀ r ∈ ex.relationships,
          relSucceeds oRel (runNodePhase o ex.nodes).createdIds r = true) ∧
      (load_from_json o oRel ex).returned =
        [("nodes_created", (load_from_json o oRel ex).nodes_created),
          ("relationships_created",
            (load_from_json o oRel ex).relationships_created)] := by
  have htrace : (load_from_json o oRel ex).trace.countP Op.isRel =
      ex.relationships.length := by
    rw [load_from_json_trace, List.countP_append, countP_isRel_map_nodeAttempt,
      countP_isRel_map_relAttempt, Nat.zero_add]
  refine ⟨htrace, ?_, ?_, rfl⟩
  · rw [htrace]
    show (runRelPhase oRel _ ex.relationships).created ≤ ex.relationships.length
    rw [runRelPhase_created]
    exact List.countP_le_length _
  · show (runRelPhase oRel _ ex.relationships).created = ex.relationships.length ↔ _
    rw [runRelPhase_created]
    exact List.countP_eq_length

/-- C7: per-entity failure isolation — under any store behaviour (including
one failing every node create and raising on every relationship create),
every node and every relationship is still attempted, node failures are
exactly the store-rejected creations, and relationship failures are exactly
those whose create raises or whose endpoints do not both resolve — in
particular every relationship with an unresolved endpoint is counted as a
failure and the (total) relationship phase never aborts. -/
theorem C7_per_entity_failure_isolation (o : ExportedNode → Except String Unit)
    (oRel : ExportedRelationship → Except String Unit) (ex : GraphExport) :
    (load_from_json o oRel ex).nodes_created +
        (load_from_json o oRel ex).nodes_failed = ex.nodes.length ∧
      (load_from_json o oRel ex).nodes_failed =
        ex.nodes.countP (fun n => !attemptOk (o n)) ∧
      (load_from_json o oRel ex).trace.length =
        ex.nodes.length + ex.relationships.length ∧
      (load_from_json o oRel ex).relationships_created +
          (load_from_json o oRel ex).relationships_failed =
        ex.relationships.length ∧
      (load_from_json o oRel ex).relationships_failed =
        ex.relationships.countP
          (fun r => !relSucceeds oRel (runNodePhase o ex.nodes).createdIds r) := by
  refine ⟨?_, ?_, ?_, ?_, ?_⟩
  · exact runNodePhase_counts o ex.nodes
  · exact runNodePhase_failed o ex.nodes
  · simp [load_from_json, runNodePhase_trace, runRelPhase_trace]
  · exact runRelPhase_counts oRel _ ex.relationships
  · exact runRelPhase_failed oRel _ ex.relationships

/-! ## Dict lemmas for the `_rulenet_id` marker -/

/-- After `d[k] = v`, looking up `k` yields `v`. -/
lemma dictGet_dictSet_self {β : Type} (d : List (String × β)) (k : String) (v : β) :
    dictGet k (dictSet d k v) = some v := by
  induction d with
  | nil => simp [dictSet, dictGet]
  | cons p rest ih =>
    by_cases h : p.1 = k <;> simp [dictSet, dictGet, h, ih]

/-- After `d[k] = v`, every other key reads as before. -/
lemma dictGet_dictSet_ne {β : Type} (d : List (String × β)) (k k' : String) (v : β)
    (hne : k' ≠ k) : dictGet k' (dictSet d k v) = dictGet k' d := by
  have hkk : ¬k = k' := fun hh => hne hh.symm
  induction d with
  | nil => simp [dictSet, dictGet, hkk]
  | cons p rest ih =>
    by_cases h : p.1 = k
    · have hp : ¬p.1 = k' := by rw [h]; exact hkk
      simp [dictSet, dictGet, h, hkk, hp]
    · simp [dictSet, dictGet, h, ih]

/-- C10: the property bag submitted for every node carries the node's external
identifier under the fixed marker key `_rulenet_id` — silently overwriting any
declared property of that name — and leaves every other declared property
unchanged. -/
theorem C10_marker_property_overwrites (n : ExportedNode) :
    dictGet "_rulenet_id" (finalProps n) = some n.id ∧
      ∀ k : String, k ≠ "_rulenet_id" →
        dictGet k (finalProps n) = dictGet k (n.properties?.getD []) := by
  constructor
  · exact dictGet_dictSet_self _ _ _
  · intro k hk
    exact dictGet_dictSet_ne _ _ _ _ hk

/-- A node whose declared properties already bind `_rulenet_id`. -/
def collidingNode : ExportedNode :=
  ⟨.vInt 7, none, some [("_rulenet_id", .vStr "old"), ("x", .vInt 3)]⟩

/-- Witness for C10: on `collidingNode` the declared `"old"` value of
`_rulenet_id` is overwritten by the external identifier `7`, while the
declared property `x` is preserved. -/
theorem C10_witness :
    dictGet "_rulenet_id" (finalProps collidingNode) = some (Value.vInt 7) ∧
      dictGet "x" (finalProps collidingNode) = some (Value.vInt 3) :=
  ⟨(C10_marker_property_overwrites collidingNode).1,
    ((C10_marker_property_overwrites collidingNode).2 "x" (by decide)).trans
      (by decide)⟩

/-! ## Assembler lemmas -/

/-- `Except` bind reduction on a success. -/
lemma exceptBind_ok {ε α β : Type} (a : α) (f : α → Except ε β) :
    (Except.ok a >>= f) = f a := rfl

/-- `Except` bind reduction on a failure. -/
lemma exceptBind_error {ε α β : Type} (e : ε) (f : α → Except ε β) :
    ((Except.error e : Except ε α) >>= f) = .error e := rfl

/-- A successful `torch.tensor` call returns its input buffer unchanged. -/
lemma torchTensor_ok {rows out : List (List Int)}
    (h : torchTensor rows = .ok out) : out = rows := by
  cases rows with
  | nil => cases h; rfl
  | cons r rs =>
    by_cases hall : rs.all (fun row => row.length == r.length) = true
    · rw [torchTensor, if_pos hall] at h
      cases h; rfl
    · rw [torchTensor, if_neg hall] at h
      cases h

/-- Two rows of different widths make `torch.tensor` raise. -/
lemma torchTensor_error_of_ragged {rows : List (List Int)} {r1 r2 : List Int}
    (h1 : r1 ∈ rows) (h2 : r2 ∈ rows) (hne : r1.length ≠ r2.length) :
    attemptOk (torchTensor rows) = false := by
  cases rows with
  | nil => cases h1
  | cons r rs =>
    by_cases hall : rs.all (fun row => row.length == r.length) = true
    · exfalso
      have hwidth : ∀ x ∈ r :: rs, x.length = r.length := by
        intro x hx
        rcases List.mem_cons.mp hx with hx | hx
        · rw [hx]
        · have hb := List.all_eq_true.mp hall x hx
          simpa using hb
      exact hne ((hwidth r1 h1).trans (hwidth r2 h2).symm)
    · rw [torchTensor, if_neg hall]
      rfl

/-- A node group whose tensor construction raises aborts `loadNodeStores`. -/
lemma loadNodeStores_error_of_mem {labels? : Option (List (String × List String))}
    {l : List (String × List (List Int))} {nt : String} {feats : List (List Int)}
    (hmem : (nt, feats) ∈ l) (hfail : attemptOk (torchTensor feats) = false) :
    attemptOk (loadNodeStores labels? l) = false := by
  induction l with
  | nil => cases hmem
  | cons p rest ih =>
    rcases p with ⟨nt', feats'⟩
    cases hh : torchTensor feats' with
    | error e => simp [loadNodeStores, hh, exceptBind_error, attemptOk]
    | ok x =>
      rcases List.mem_cons.mp hmem with hhead | htail
      · exfalso
        have heq : feats' = feats := congrArg Prod.snd hhead.symm
        rw [← heq, hh] at hfail
        simp [attemptOk] at hfail
      · have hrest := ih htail
        cases hr : loadNodeStores labels? rest with
        | error e =>
            simp [loadNodeStores, hh, hr, exceptBind_ok, exceptBind_error, attemptOk]
        | ok out =>
            rw [hr] at hrest
            simp [attemptOk] at hrest

/-- An accepted `loadEdgeStores` run stores every input index buffer
verbatim. -/
lemma loadEdgeStores_preserves_indices
    {fe : Option (List (String × List (List Int)))}
    {l : List (String × List (List Int))}
    {out : List ((String × String × String) × EdgeStore)}
    (h : loadEdgeStores fe l = .ok out) :
    ∀ ts idx, (ts, idx) ∈ l →
      out.any (fun p => decide (p.2.edge_index = idx)) = true := by
  induction l generalizing out with
  | nil => intro ts idx hmem; cases hmem
  | cons p rest ih =>
    intro ts idx hmem
    rcases p with ⟨ts', indices⟩
    cases hpt : parseTriplet ts' with
    | error e => rw [loadEdgeStores, hpt, exceptBind_error] at h; cases h
    | ok trip =>
      cases hti : torchTensor indices with
      | error e =>
          rw [loadEdgeStores, hpt, exceptBind_ok, hti, exceptBind_error] at h
          cases h
      | ok ei =>
        rw [loadEdgeStores, hpt, exceptBind_ok, hti, exceptBind_ok] at h
        cases hattr : edgeAttr fe ts' with
        | error e => rw [hattr, exceptBind_error] at h; cases h
        | ok attr? =>
          rw [hattr, exceptBind_ok] at h
          cases hrest : loadEdgeStores fe rest with
          | error e => rw [hrest, exceptBind_error] at h; cases h
          | ok rest' =>
            rw [hrest, exceptBind_ok] at h
            cases h
            rcases List.mem_cons.mp hmem with hhead | htail
            · have hidx : indices = idx := congrArg Prod.snd hhead.symm
              have hei : ei = idx := (torchTensor_ok hti).trans hidx
              simp [List.any_cons, hei]
            · have := ih hrest ts idx htail
              simp [List.any_cons, this]

/-! ## Claims about the Heterogeneous Assembler -/

/-- A tensor export whose edge-feature buffer has 3 rows for an edge-index
buffer describing a single edge. -/
def mismatchedEdgeExport : TensorExport :=
  ⟨[("A", [[1], [2]])], none, [("A,r,A", [[0], [1]])],
    some [("A,r,A", [[7], [8], [9]])]⟩

/-- C8 counterexample: the assembler performs no edge-shape validation — on an
export whose edge-feature buffer has 3 rows while its index buffer describes
1 edge, `load_hetero_graph` returns the buffers to the caller (no error of
any kind, and no `ShapeMismatchError` type exists in the source), silently
tolerating the mismatch. -/
theorem C8_counterexample :
    load_hetero_graph mismatchedEdgeExport =
      .ok ⟨[("A", ⟨[[1], [2]], none⟩)],
        [(("A", "r", "A"), ⟨[[0], [1]], some [[7], [8], [9]]⟩)]⟩ := by
  decide

/-- C8 (amended): a node group with two feature vectors of different widths
does make the assembler fail before any buffer is handed to a caller — but
with the tensor library's generic construction error, not a dedicated
`ShapeMismatchError` — while an edge-feature buffer whose row count disagrees
with its index buffer's edge count is silently tolerated (see the
counterexample). -/
theorem C8_ragged_node_group_fails (ex : TensorExport) (nt : String)
    (feats : List (List Int)) (hmem : (nt, feats) ∈ ex.nodeFeatures)
    (r1 r2 : List Int) (h1 : r1 ∈ feats) (h2 : r2 ∈ feats)
    (hne : r1.length ≠ r2.length) :
    attemptOk (load_hetero_graph ex) = false := by
  have hft := torchTensor_error_of_ragged h1 h2 hne
  have hns := @loadNodeStores_error_of_mem ex.nodeLabels? ex.nodeFeatures nt feats
    hmem hft
  cases hn : loadNodeStores ex.nodeLabels? ex.nodeFeatures with
  | error e =>
      unfold load_hetero_graph
      rw [hn, exceptBind_error]
      rfl
  | ok out =>
      rw [hn] at hns
      simp [attemptOk] at hns

/-- A tensor export with a ragged node-feature group. -/
def raggedExport : TensorExport := ⟨[("A", [[1], [2, 3]])], none, [], none⟩

/-- Witness for C8 (amended): the ragged group `[[1], [2, 3]]` makes
`load_hetero_graph` fail. -/
theorem C8_witness : attemptOk (load_hetero_graph raggedExport) = false :=
  C8_ragged_node_group_fails raggedExport "A" [[1], [2, 3]] (by decide)
    [1] [2, 3] (by decide) (by decide) (by decide)

/-- A tensor export whose single node group has 1 row while its edge group
uses row index 5. -/
def outOfRangeExport : TensorExport :=
  ⟨[("A", [[1]])], none, [("A,r,A", [[5], [5]])], none⟩

/-- C9 counterexample: no index-bounds check exists — an export whose edge
indices reference row 5 of a 1-row node group is accepted, and the
out-of-range indices are stored as given (5 is not `< 1`). -/
theorem C9_counterexample :
    load_hetero_graph outOfRangeExport =
        .ok ⟨[("A", ⟨[[1]], none⟩)],
          [(("A", "r", "A"), ⟨[[5], [5]], none⟩)]⟩ ∧
      ¬((5 : Int) < 1) := by
  decide

/-- C9 (amended): the assembler never validates or clamps edge indices — on
every export it accepts, each input index buffer is stored verbatim in the
resulting `edge_index`, out-of-range values included. -/
theorem C9_indices_passed_through_unchecked (ex : TensorExport) (d : HeteroData)
    (h : load_hetero_graph ex = .ok d) (ts : String) (idx : List (List Int))
    (hmem : (ts, idx) ∈ ex.edgeIndices) :
    d.edgeStores.any (fun p => decide (p.2.edge_index = idx)) = true := by
  unfold load_hetero_graph at h
  cases hn : loadNodeStores ex.nodeLabels? ex.nodeFeatures with
  | error e => rw [hn, exceptBind_error] at h; cases h
  | ok ns =>
    rw [hn, exceptBind_ok] at h
    cases he : loadEdgeStores ex.edgeFeatures? ex.edgeIndices with
    | error e => rw [he, exceptBind_error] at h; cases h
    | ok es =>
      rw [he, exceptBind_ok] at h
      cases h
      exact loadEdgeStores_preserves_indices he ts idx hmem

/-- Witness for C9 (amended): the out-of-range buffer `[[5], [5]]` of
`outOfRangeExport` reappears verbatim in the assembled graph. -/
theorem C9_witness :
    (HeteroData.mk [("A", ⟨[[1]], none⟩)]
        [(("A", "r", "A"), ⟨[[5], [5]], none⟩)]).edgeStores.any
      (fun p => decide (p.2.edge_index = [[5], [5]])) = true :=
  C9_indices_passed_through_unchecked outOfRangeExport _ (by decide)
    "A,r,A" [[5], [5]] (by decide)

end BizRuleNet
